import Mathlib

/-!
Verification of the TU Document Request server's request-lifecycle core.

The definitions below are a shallow embedding of the JavaScript sources:
`src/models/Request.js` (the mongoose schema, its enum/required validators and
its pre-save hook) and `src/controllers/requestController.js` (the seven
controller actions), together with the route table that guards the admin-only
actions.  Machine state is the list of persisted requests; every controller
action is a pure function from that state (plus the authenticated principal
and the request body) to either an updated state or a typed error, mirroring
the one-save-or-error structure of each controller.
-/

deriving instance DecidableEq for Except

namespace TUDoc

/-- The status enumeration of requestSchema.status in src/models/Request.js. -/
def statusEnum : List String :=
  ["submitted", "under_review", "correction_required", "approved",
   "rejected", "in_processing", "ready", "completed"]

/-- The requestType enumeration of requestSchema.requestType. -/
def requestTypeEnum : List String :=
  ["degree_certificate", "provisional_certificate", "migration_certificate",
   "transcript", "marksheet", "name_correction", "dob_correction",
   "retotaling", "rechecking", "other"]

/-- The priority enumeration of requestSchema.priority. -/
def priorityEnum : List String := ["low", "medium", "high", "urgent"]

/-- A timeline event subdocument (timelineEventSchema).  The performedBy
reference is optional in the schema; the creation seed leaves it unset. -/
structure TimelineEvent where
  status : String
  message : String
  performedBy : Option String
  performedByName : Option String
  timestamp : Nat
deriving DecidableEq

/-- An adminRemarks subdocument of requestSchema. -/
structure AdminRemark where
  admin : Option String
  adminName : Option String
  remark : Option String
  timestamp : Nat
deriving DecidableEq

/-- The correctionDetails subdocument of requestSchema. -/
structure CorrectionDetails where
  currentValue : Option String
  requestedValue : Option String
  reason : Option String
deriving DecidableEq

/-- An uploadedDocuments subdocument of requestSchema. -/
structure UploadedDocument where
  fileName : Option String
  fileUrl : Option String
  fileType : Option String
  uploadedAt : Nat
deriving DecidableEq

/-- A persisted request document (requestSchema in src/models/Request.js).
ObjectIds are embedded as strings and dates as natural numbers. -/
structure Request where
  id : String
  userId : String
  requestType : String
  title : String
  description : String
  correctionDetails : Option CorrectionDetails
  uploadedDocuments : List UploadedDocument
  status : String
  adminRemarks : List AdminRemark
  timeline : List TimelineEvent
  priority : String
  rejectionReason : Option String
  createdAt : Nat
  updatedAt : Nat
  expectedCompletionDate : Option Nat
  completedAt : Option Nat
deriving DecidableEq

/-- The authenticated principal attached to a call (req.user). -/
structure Principal where
  id : String
  role : String
  firstName : String
  lastName : String
deriving DecidableEq

/-- The error taxonomy of the spec: controller failures by kind
(400 validation, 404 not found, 403 authorization). -/
inductive RequestError where
  | ValidationError
  | NotFoundError
  | AuthorizationError
deriving DecidableEq

/-- The caller's display name as built by the controllers
(user.firstName interpolated with user.lastName). -/
def fullName (u : Principal) : String := u.firstName ++ " " ++ u.lastName

/-- JavaScript a-or-b defaulting: the controllers write m or-else d, which
yields d when m is undefined or the empty string. -/
def orDefault : Option String → String → String
  | some s, d => if s = "" then d else s
  | none, d => d

/-- Request.findById: the persisted document whose id equals the route id. -/
def findById (store : List Request) (rid : String) : Option Request :=
  store.find? (fun r => r.id == rid)

/-- Persisting an existing document replaces the stored row with the same id. -/
def updateStore (store : List Request) (r : Request) : List Request :=
  store.map (fun x => if x.id = r.id then r else x)

/-- The schema validators that mongoose runs on save: required string paths
(title, description, requestType) must be non-empty, and each enum path must
hold one of its declared values. -/
def validRequest (r : Request) : Prop :=
  r.requestType ∈ requestTypeEnum ∧ r.title ≠ "" ∧ r.description ≠ "" ∧
  r.status ∈ statusEnum ∧ r.priority ∈ priorityEnum

instance (r : Request) : Decidable (validRequest r) := by
  unfold validRequest; infer_instance

/-- Saving an existing document: the pre-save hook refreshes updatedAt, the
schema validators run, and on success the stored row is replaced.  A validator
failure surfaces as a ValidationError and nothing is persisted. -/
def saveExisting (store : List Request) (r : Request) (now : Nat) :
    Except RequestError (Request × List Request) :=
  if validRequest { r with updatedAt := now } then
    .ok ({ r with updatedAt := now }, updateStore store { r with updatedAt := now })
  else .error .ValidationError

/-- Modelled from the spec: the authorize middleware on the admin routes
(src/middleware/auth is not among the sources) admits exactly the callers
whose role is admin; every other caller fails with an AuthorizationError
before the controller body runs. -/
@[reducible] def authorizedAdmin (user : Principal) : Prop := user.role = "admin"

instance (user : Principal) : Decidable (authorizedAdmin user) := by
  unfold authorizedAdmin; infer_instance

/-- The request body accepted by createRequest. -/
structure CreateBody where
  requestType : Option String
  title : Option String
  description : Option String
  correctionDetails : Option CorrectionDetails
  uploadedDocuments : Option (List UploadedDocument)
  priority : Option String
deriving DecidableEq

/-- The pre-save hook of requestSchema on a new document: it seeds the
timeline with the submitted event before first persisting. -/
def seedEvent (now : Nat) : TimelineEvent :=
  ⟨"submitted", "Request submitted successfully", none, none, now⟩

/-- exports.createRequest: builds a document from the body with the caller as
userId, priority defaulted to medium, schema-default status submitted; the
pre-save hook seeds the timeline and the validators run before the insert. -/
def createRequest (store : List Request) (user : Principal) (body : CreateBody)
    (newId : String) (now : Nat) : Except RequestError (Request × List Request) :=
  match body.requestType, body.title, body.description with
  | some rt, some t, some d =>
    let r : Request :=
      { id := newId, userId := user.id, requestType := rt, title := t,
        description := d, correctionDetails := body.correctionDetails,
        uploadedDocuments := body.uploadedDocuments.getD [],
        status := "submitted", adminRemarks := [],
        timeline := [] ++ [seedEvent now],
        priority := orDefault body.priority "medium",
        rejectionReason := none, createdAt := now, updatedAt := now,
        expectedCompletionDate := none, completedAt := none }
    if validRequest r then .ok (r, store ++ [r]) else .error .ValidationError
  | _, _, _ => .error .ValidationError

/-- exports.getRequestById: 404 when the id is unknown, 403 when the caller
neither owns the request nor is an admin, otherwise the request. -/
def getRequestById (store : List Request) (rid : String) (user : Principal) :
    Except RequestError Request :=
  match findById store rid with
  | none => .error .NotFoundError
  | some r =>
    if r.userId ≠ user.id ∧ user.role ≠ "admin" then .error .AuthorizationError
    else .ok r

/-- The request body accepted by updateRequestStatus. -/
structure StatusBody where
  status : String
  message : Option String
deriving DecidableEq

/-- The in-memory mutation performed by exports.updateRequestStatus on the
loaded document: set the status, push the timeline event, and stamp
completedAt when the new status is completed. -/
def applyStatusUpdate (body : StatusBody) (user : Principal) (now : Nat)
    (r : Request) : Request :=
  { r with
    status := body.status,
    timeline := r.timeline ++
      [⟨body.status, orDefault body.message ("Status updated to " ++ body.status),
        some user.id, some (fullName user), now⟩],
    completedAt := if body.status = "completed" then some now else r.completedAt }

/-- exports.updateRequestStatus behind the admin-only route. -/
def updateRequestStatus (store : List Request) (rid : String) (body : StatusBody)
    (user : Principal) (now : Nat) : Except RequestError (Request × List Request) :=
  if authorizedAdmin user then
    match findById store rid with
    | none => .error .NotFoundError
    | some r => saveExisting store (applyStatusUpdate body user now r) now
  else .error .AuthorizationError

/-- The in-memory mutation performed by exports.addRemark: push the remark and
mirror it into the timeline at the unchanged status. -/
def applyRemark (m : String) (user : Principal) (now : Nat) (r : Request) : Request :=
  { r with
    adminRemarks := r.adminRemarks ++ [⟨some user.id, some (fullName user), some m, now⟩],
    timeline := r.timeline ++
      [⟨r.status, "Admin added a remark: " ++ m, some user.id, some (fullName user), now⟩] }

/-- exports.addRemark behind the admin-only route: a missing or empty remark is
rejected before the document is looked up. -/
def addRemark (store : List Request) (rid : String) (remark : Option String)
    (user : Principal) (now : Nat) : Except RequestError (Request × List Request) :=
  if authorizedAdmin user then
    match remark with
    | none => .error .ValidationError
    | some m =>
      if m = "" then .error .ValidationError
      else
        match findById store rid with
        | none => .error .NotFoundError
        | some r => saveExisting store (applyRemark m user now r) now
  else .error .AuthorizationError

/-- The in-memory mutation performed by exports.rejectRequest: set the status
to rejected, record the reason, and push the timeline event. -/
def applyReject (rsn : String) (user : Principal) (now : Nat) (r : Request) : Request :=
  { r with
    status := "rejected", rejectionReason := some rsn,
    timeline := r.timeline ++
      [⟨"rejected", "Request rejected: " ++ rsn, some user.id, some (fullName user), now⟩] }

/-- exports.rejectRequest behind the admin-only route: a missing or empty
reason is rejected before the document is looked up. -/
def rejectRequest (store : List Request) (rid : String) (reason : Option String)
    (user : Principal) (now : Nat) : Except RequestError (Request × List Request) :=
  if authorizedAdmin user then
    match reason with
    | none => .error .ValidationError
    | some rsn =>
      if rsn = "" then .error .ValidationError
      else
        match findById store rid with
        | none => .error .NotFoundError
        | some r => saveExisting store (applyReject rsn user now r) now
  else .error .AuthorizationError

/-- The query string accepted by exports.getAllRequests. -/
structure ListQuery where
  status : Option String
  requestType : Option String
  priority : Option String
  search : Option String
deriving DecidableEq

/-- A truthiness-guarded exact-match filter: the controller adds the condition
to the query only when the option is set and non-empty. -/
def exactFilter : Option String → String → Bool
  | none, _ => true
  | some s, field => s == "" || field == s

/-- A token of the regular-expression fragment relevant to the search option:
the wildcard dot or a literal character. -/
inductive RTok where
  | dot
  | lit (c : Char)
deriving DecidableEq

/-- Lexing a pattern string into tokens: a backslash escapes the following
character, a bare dot is the wildcard, everything else is a literal.  This is
the PCRE reading MongoDB gives the pattern handed to its regex operator by the
controller, restricted to patterns built from these constructs. -/
def lexPattern : List Char → List RTok
  | [] => []
  | c :: rest =>
    if c = '\\' then
      match rest with
      | [] => [RTok.lit '\\']
      | d :: rest2 => RTok.lit d :: lexPattern rest2
    else if c = '.' then RTok.dot :: lexPattern rest
    else RTok.lit c :: lexPattern rest

/-- Case-insensitive single-token match: the dot matches any character except
a newline; a literal matches up to case (the controller always passes the
case-insensitivity option). -/
def tokMatch : RTok → Char → Bool
  | .dot, c => c != '\n'
  | .lit a, c => a.toLower == c.toLower

/-- Anchored match of a token list against the front of the text. -/
def matchHere : List RTok → List Char → Bool
  | [], _ => true
  | _ :: _, [] => false
  | t :: ts, c :: cs => tokMatch t c && matchHere ts cs

/-- Unanchored regex search: the token list matches at some position. -/
def regexSearch (toks : List RTok) : List Char → Bool
  | [] => matchHere toks []
  | c :: cs => matchHere toks (c :: cs) || regexSearch toks cs

/-- The case-insensitive regex test the controller's search option performs on
title and description. -/
def mongoRegexTestCI (pat s : String) : Bool :=
  regexSearch (lexPattern pat.toList) s.toList

/-- Anchored case-insensitive comparison of a pattern against the front of a
text, character by character. -/
def ciStarts : List Char → List Char → Bool
  | [], _ => true
  | _ :: _, [] => false
  | a :: ps, c :: cs => a.toLower == c.toLower && ciStarts ps cs

/-- Case-insensitive containment of a pattern at some position of a text. -/
def ciContains (pat : List Char) : List Char → Bool
  | [] => ciStarts pat []
  | c :: cs => ciStarts pat (c :: cs) || ciContains pat cs

/-- Modelled from the spec: the search option as a case-insensitive substring
match of the search string against a field. -/
def ciSubstr (pat field : String) : Bool := ciContains pat.toList field.toList

/-- The search condition exports.getAllRequests adds when the search option is
set and non-empty: a case-insensitive regex test against title OR description. -/
def searchFilter (search : Option String) (r : Request) : Bool :=
  match search with
  | none => true
  | some s => s == "" || mongoRegexTestCI s r.title || mongoRegexTestCI s r.description

/-- The complete document predicate of the query exports.getAllRequests builds:
the conjunction of the three exact-match filters and the search filter. -/
def matchesQuery (q : ListQuery) (r : Request) : Bool :=
  exactFilter q.status r.status && exactFilter q.requestType r.requestType &&
  exactFilter q.priority r.priority && searchFilter q.search r

/-- Modelled from the spec: the search condition read as a case-insensitive
substring match against title OR description, for comparison with the regex
semantics the code delegates to the database. -/
def specSearchFilter (search : Option String) (r : Request) : Bool :=
  match search with
  | none => true
  | some s => s == "" || ciSubstr s r.title || ciSubstr s r.description

/-- Modelled from the spec: the document predicate with the search option read
as a substring match, for comparison with matchesQuery. -/
def specMatches (q : ListQuery) (r : Request) : Bool :=
  exactFilter q.status r.status && exactFilter q.requestType r.requestType &&
  exactFilter q.priority r.priority && specSearchFilter q.search r

/-- The sort order of the result lists: createdAt descending. -/
def createdAtDesc (a b : Request) : Prop := b.createdAt ≤ a.createdAt

instance : DecidableRel createdAtDesc := fun a b => by
  unfold createdAtDesc; infer_instance

instance : IsTotal Request createdAtDesc :=
  ⟨fun a b => Nat.le_total b.createdAt a.createdAt⟩

instance : IsTrans Request createdAtDesc :=
  ⟨fun _ _ _ hab hbc => Nat.le_trans hbc hab⟩

/-- exports.getAllRequests behind the admin-only route: the matching documents
sorted by createdAt descending. -/
def getAllRequests (store : List Request) (q : ListQuery) (user : Principal) :
    Except RequestError (List Request) :=
  if authorizedAdmin user then
    .ok (List.insertionSort createdAtDesc (store.filter (matchesQuery q)))
  else .error .AuthorizationError

/-- The number of stored requests whose current status is s. -/
def countStatus (store : List Request) (s : String) : Nat :=
  (store.filter (fun r => r.status == s)).length

/-- The statistics record exports.getRequestStats assembles. -/
structure Stats where
  total : Nat
  byStatus : List (String × Nat)
deriving DecidableEq

/-- exports.getRequestStats behind the admin-only route: the total document
count plus one by-status entry per status value observed in the store (the
aggregation groups by status, so only occurring statuses appear). -/
def getRequestStats (store : List Request) (user : Principal) :
    Except RequestError Stats :=
  if authorizedAdmin user then
    .ok { total := store.length,
          byStatus := ((store.map (fun r => r.status)).dedup).map
            (fun s => (s, countStatus store s)) }
  else .error .AuthorizationError

/-- One externally triggered mutation of the store. -/
inductive Op where
  | createOp (user : Principal) (body : CreateBody) (newId : String) (now : Nat)
  | statusOp (rid : String) (body : StatusBody) (user : Principal) (now : Nat)
  | remarkOp (rid : String) (remark : Option String) (user : Principal) (now : Nat)
  | rejectOp (rid : String) (reason : Option String) (user : Principal) (now : Nat)
deriving DecidableEq

/-- The effect of one operation on the persisted store: a failing call
persists nothing. -/
def applyOp (store : List Request) : Op → List Request
  | .createOp u b i n =>
    match createRequest store u b i n with
    | .ok (_, s2) => s2
    | .error _ => store
  | .statusOp rid b u n =>
    match updateRequestStatus store rid b u n with
    | .ok (_, s2) => s2
    | .error _ => store
  | .remarkOp rid m u n =>
    match addRemark store rid m u n with
    | .ok (_, s2) => s2
    | .error _ => store
  | .rejectOp rid rsn u n =>
    match rejectRequest store rid rsn u n with
    | .ok (_, s2) => s2
    | .error _ => store

/-- The store reached by a sequence of operations from the empty store. -/
def run (ops : List Op) : List Request := ops.foldl applyOp []

/-- The PCRE metacharacters.  A search string avoiding all of them is read by
the regex engine as a literal. -/
def regexMeta : List Char :=
  ['\\', '^', '$', '.', '|', '?', '*', '+', '(', ')', '[', ']', '\x7b', '\x7d']

/-- The audit invariant every reachable request maintains: the timeline starts
with the system-seeded entry carrying no performedBy, every later entry names
its admin, the last entry records the current status, and completedAt is set
exactly when some timeline entry records the completed status. -/
def ReqInv (r : Request) : Prop :=
  (∃ e rest, r.timeline = e :: rest ∧ e.performedBy = none ∧
    ∀ e2 ∈ rest, e2.performedBy ≠ none) ∧
  (∃ e, r.timeline.getLast? = some e ∧ e.status = r.status) ∧
  (r.completedAt ≠ none ↔ ∃ e ∈ r.timeline, e.status = "completed")

/-- A sample admin principal used to instantiate the theorems below. -/
def adminP : Principal := ⟨"u1", "admin", "Ada", "Admin"⟩

/-- A sample non-admin principal. -/
def studentP : Principal := ⟨"u2", "user", "Stu", "Dent"⟩

/-- A sample valid creation body. -/
def sampleBody : CreateBody :=
  ⟨some "transcript", some "Need transcript", some "Please mail my transcript",
   none, none, none⟩

/-- The request persisted by createRequest for sampleBody at time 0. -/
def sampleReq : Request :=
  { id := "r1", userId := "u2", requestType := "transcript",
    title := "Need transcript", description := "Please mail my transcript",
    correctionDetails := none, uploadedDocuments := [], status := "submitted",
    adminRemarks := [], timeline := [seedEvent 0], priority := "medium",
    rejectionReason := none, createdAt := 0, updatedAt := 0,
    expectedCompletionDate := none, completedAt := none }

/-- The state of sampleReq after an admin moves it to approved at time 5. -/
def sampleReq2 : Request :=
  { sampleReq with
    status := "approved",
    timeline := sampleReq.timeline ++
      [⟨"approved", "Status updated to approved", some "u1", some "Ada Admin", 5⟩],
    updatedAt := 5 }

/-- A sample one-operation history that creates sampleReq. -/
def sampleOps : List Op := [.createOp studentP sampleBody "r1" 0]

/-- A sample filter whose search string is a bare regex wildcard. -/
def searchQuery : ListQuery := ⟨none, none, none, some "."⟩

/-- A store with three submitted and two completed requests. -/
def fiveStore : List Request :=
  [{ sampleReq with id := "a1" }, { sampleReq with id := "a2" },
   { sampleReq with id := "a3" },
   { sampleReq with id := "a4", status := "completed" },
   { sampleReq with id := "a5", status := "completed" }]

/-! Helper lemmas about lookup, save and the operation inversions. -/

theorem findById_id {store : List Request} {rid : String} {r : Request}
    (h : findById store rid = some r) : r.id = rid := by
  unfold findById at h
  have := List.find?_some h
  simpa using this

theorem findById_mem {store : List Request} {rid : String} {r : Request}
    (h : findById store rid = some r) : r ∈ store :=
  List.mem_of_find?_eq_some h

theorem mem_updateStore {store : List Request} {r' x : Request}
    (hx : x ∈ updateStore store r') : x ∈ store ∨ x = r' := by
  unfold updateStore at hx
  obtain ⟨y, hy, hxy⟩ := List.mem_map.mp hx
  by_cases h : y.id = r'.id
  · rw [if_pos h] at hxy
    exact Or.inr hxy.symm
  · rw [if_neg h] at hxy
    exact Or.inl (hxy ▸ hy)

theorem findById_updateStore (r' : Request) {store : List Request} {rid : String}
    {r : Request}
    (h : findById store rid = some r) (hid : r'.id = r.id) :
    findById (updateStore store r') rid = some r' := by
  have hrid : r.id = rid := findById_id h
  unfold findById updateStore
  unfold findById at h
  induction store with
  | nil => simp [List.find?] at h
  | cons x xs ih =>
    rw [List.map_cons]
    by_cases hx : x.id = rid
    · have hpos : (fun y : Request => y.id == rid) x = true := by simp [hx]
      rw [List.find?_cons_of_pos (p := fun y : Request => y.id == rid) _ hpos] at h
      have hxr : x = r := by injection h
      have hxid : x.id = r'.id := by rw [hid, ← hxr]
      rw [if_pos hxid]
      exact List.find?_cons_of_pos (p := fun y : Request => y.id == rid) _
        (by simp [hid, hrid])
    · have hneg : ¬ (fun y : Request => y.id == rid) x = true := by simp [hx]
      rw [List.find?_cons_of_neg (p := fun y : Request => y.id == rid) _ hneg] at h
      have hxid : ¬ x.id = r'.id := by rw [hid, hrid]; exact hx
      rw [if_neg hxid]
      rw [List.find?_cons_of_neg (p := fun y : Request => y.id == rid) _ hneg]
      exact ih h

theorem saveExisting_ok {store : List Request} {r r' : Request} {now : Nat}
    {store' : List Request}
    (h : saveExisting store r now = .ok (r', store')) :
    r' = { r with updatedAt := now } ∧ validRequest r' ∧
      store' = updateStore store r' := by
  unfold saveExisting at h
  split at h
  · rename_i hv
    simp only [Except.ok.injEq, Prod.mk.injEq] at h
    obtain ⟨h1, h2⟩ := h
    subst h1
    subst h2
    exact ⟨rfl, hv, rfl⟩
  · simp at h

theorem createRequest_ok {store : List Request} {user : Principal}
    {body : CreateBody} {newId : String} {now : Nat} {r' : Request}
    {store' : List Request}
    (h : createRequest store user body newId now = .ok (r', store')) :
    r'.timeline = [seedEvent now] ∧ r'.status = "submitted" ∧
      r'.completedAt = none ∧ r'.adminRemarks = [] ∧ store' = store ++ [r'] := by
  unfold createRequest at h
  split at h
  · dsimp only at h
    split at h
    · simp only [Except.ok.injEq, Prod.mk.injEq] at h
      obtain ⟨h1, h2⟩ := h
      subst h1
      subst h2
      refine ⟨by simp, rfl, rfl, rfl, rfl⟩
    · simp at h
  · simp at h

theorem updateRequestStatus_ok {store : List Request} {rid : String}
    {body : StatusBody} {user : Principal} {now : Nat} {r' : Request}
    {store' : List Request}
    (h : updateRequestStatus store rid body user now = .ok (r', store')) :
    user.role = "admin" ∧ ∃ r, findById store rid = some r ∧
      r' = { applyStatusUpdate body user now r with updatedAt := now } ∧
      validRequest r' ∧ store' = updateStore store r' := by
  unfold updateRequestStatus at h
  split at h
  · rename_i hadm
    split at h
    · simp at h
    · rename_i r hr
      obtain ⟨h1, h2, h3⟩ := saveExisting_ok h
      exact ⟨hadm, r, hr, h1, h2, h3⟩
  · simp at h

theorem addRemark_ok {store : List Request} {rid : String} {remark : Option String}
    {user : Principal} {now : Nat} {r' : Request} {store' : List Request}
    (h : addRemark store rid remark user now = .ok (r', store')) :
    user.role = "admin" ∧ ∃ m, remark = some m ∧ m ≠ "" ∧
      ∃ r, findById store rid = some r ∧
        r' = { applyRemark m user now r with updatedAt := now } ∧
        validRequest r' ∧ store' = updateStore store r' := by
  unfold addRemark at h
  split at h
  · rename_i hadm
    split at h
    · simp at h
    · rename_i m
      split at h
      · simp at h
      · rename_i hm
        split at h
        · simp at h
        · rename_i r hr
          obtain ⟨h1, h2, h3⟩ := saveExisting_ok h
          exact ⟨hadm, m, rfl, hm, r, hr, h1, h2, h3⟩
  · simp at h

theorem rejectRequest_ok {store : List Request} {rid : String}
    {reason : Option String} {user : Principal} {now : Nat} {r' : Request}
    {store' : List Request}
    (h : rejectRequest store rid reason user now = .ok (r', store')) :
    user.role = "admin" ∧ ∃ rsn, reason = some rsn ∧ rsn ≠ "" ∧
      ∃ r, findById store rid = some r ∧
        r' = { applyReject rsn user now r with updatedAt := now } ∧
        validRequest r' ∧ store' = updateStore store r' := by
  unfold rejectRequest at h
  split at h
  · rename_i hadm
    split at h
    · simp at h
    · rename_i rsn
      split at h
      · simp at h
      · rename_i hrsn
        split at h
        · simp at h
        · rename_i r hr
          obtain ⟨h1, h2, h3⟩ := saveExisting_ok h
          exact ⟨hadm, rsn, rfl, hrsn, r, hr, h1, h2, h3⟩
  · simp at h

/-! Preservation of the audit invariant along every operation. -/

theorem mem_of_getLast?_eq {l : List TimelineEvent} {e : TimelineEvent}
    (h : l.getLast? = some e) : e ∈ l := by
  obtain ⟨hne, he⟩ := List.mem_getLast?_eq_getLast (l := l) (x := e) h
  exact he ▸ List.getLast_mem hne

theorem timelineAppend_first {l : List TimelineEvent} {ev : TimelineEvent}
    (h : ∃ e rest, l = e :: rest ∧ e.performedBy = none ∧
      ∀ e2 ∈ rest, e2.performedBy ≠ none)
    (hev : ev.performedBy ≠ none) :
    ∃ e rest, l ++ [ev] = e :: rest ∧ e.performedBy = none ∧
      ∀ e2 ∈ rest, e2.performedBy ≠ none := by
  obtain ⟨e, rest, hl, hpb, hrest⟩ := h
  refine ⟨e, rest ++ [ev], by rw [hl]; rfl, hpb, ?_⟩
  intro e2 he2
  rcases List.mem_append.mp he2 with h2 | h2
  · exact hrest e2 h2
  · rw [List.mem_singleton] at h2
    subst h2
    exact hev

theorem completed_append {l : List TimelineEvent} {ev : TimelineEvent}
    {c : Option Nat}
    (h : c ≠ none ↔ ∃ e ∈ l, e.status = "completed")
    (hev : ev.status ≠ "completed") :
    (c ≠ none ↔ ∃ e ∈ l ++ [ev], e.status = "completed") := by
  rw [h]
  constructor
  · rintro ⟨e, he, hs⟩
    exact ⟨e, List.mem_append.mpr (Or.inl he), hs⟩
  · rintro ⟨e, he, hs⟩
    rcases List.mem_append.mp he with h2 | h2
    · exact ⟨e, h2, hs⟩
    · rw [List.mem_singleton] at h2
      subst h2
      exact absurd hs hev

theorem ReqInv_statusUpdate {r : Request} (inv : ReqInv r) (body : StatusBody)
    (user : Principal) (now : Nat) :
    ReqInv { applyStatusUpdate body user now r with updatedAt := now } := by
  obtain ⟨inv1, _, inv3⟩ := inv
  unfold ReqInv applyStatusUpdate
  dsimp only
  refine ⟨timelineAppend_first inv1 (by simp), ⟨_, List.getLast?_concat _, rfl⟩, ?_⟩
  by_cases hc : body.status = "completed"
  · rw [if_pos hc]
    refine iff_of_true (by simp) ?_
    exact ⟨_, List.mem_append.mpr (Or.inr (List.mem_singleton.mpr rfl)), hc⟩
  · rw [if_neg hc]
    exact completed_append inv3 hc

theorem ReqInv_remark {r : Request} (inv : ReqInv r) (m : String)
    (user : Principal) (now : Nat) :
    ReqInv { applyRemark m user now r with updatedAt := now } := by
  obtain ⟨inv1, ⟨e0, hlast, hst⟩, inv3⟩ := inv
  unfold ReqInv applyRemark
  dsimp only
  refine ⟨timelineAppend_first inv1 (by simp), ⟨_, List.getLast?_concat _, rfl⟩, ?_⟩
  by_cases hc : r.status = "completed"
  · refine iff_of_true ?_ ?_
    · exact inv3.mpr ⟨e0, mem_of_getLast?_eq hlast, hst.trans hc⟩
    · exact ⟨_, List.mem_append.mpr (Or.inr (List.mem_singleton.mpr rfl)), hc⟩
  · exact completed_append inv3 hc

theorem ReqInv_reject {r : Request} (inv : ReqInv r) (rsn : String)
    (user : Principal) (now : Nat) :
    ReqInv { applyReject rsn user now r with updatedAt := now } := by
  obtain ⟨inv1, _, inv3⟩ := inv
  unfold ReqInv applyReject
  dsimp only
  exact ⟨timelineAppend_first inv1 (by simp), ⟨_, List.getLast?_concat _, rfl⟩,
    completed_append inv3 (by simp)⟩

theorem ReqInv_of_create {now : Nat} {r' : Request}
    (h1 : r'.timeline = [seedEvent now]) (h2 : r'.status = "submitted")
    (h3 : r'.completedAt = none) : ReqInv r' := by
  refine ⟨⟨seedEvent now, [], by rw [h1], rfl, by simp⟩,
    ⟨seedEvent now, by rw [h1]; rfl, by rw [h2]; rfl⟩, ?_⟩
  refine iff_of_false (by simp [h3]) ?_
  rw [h1]
  rintro ⟨e, he, hs⟩
  rw [List.mem_singleton] at he
  subst he
  exact absurd hs (by simp [seedEvent])

theorem applyOp_inv {store : List Request} (op : Op)
    (h : ∀ r ∈ store, ReqInv r) : ∀ r ∈ applyOp store op, ReqInv r := by
  intro r hr
  cases op with
  | createOp u b i n =>
    simp only [applyOp] at hr
    cases hcr : createRequest store u b i n with
    | ok p =>
      obtain ⟨r0, s2⟩ := p
      rw [hcr] at hr
      obtain ⟨h1, h2, h3, _, h5⟩ := createRequest_ok hcr
      rw [h5] at hr
      rcases List.mem_append.mp hr with hm | hm
      · exact h r hm
      · rw [List.mem_singleton] at hm
        subst hm
        exact ReqInv_of_create h1 h2 h3
    | error e =>
      rw [hcr] at hr
      exact h r hr
  | statusOp rid b u n =>
    simp only [applyOp] at hr
    cases hcr : updateRequestStatus store rid b u n with
    | ok p =>
      obtain ⟨r0, s2⟩ := p
      rw [hcr] at hr
      obtain ⟨_, r1, hfind, hr0, _, hs2⟩ := updateRequestStatus_ok hcr
      rw [hs2] at hr
      rcases mem_updateStore hr with hm | hm
      · exact h r hm
      · subst hm
        rw [hr0]
        exact ReqInv_statusUpdate (h r1 (findById_mem hfind)) b u n
    | error e =>
      rw [hcr] at hr
      exact h r hr
  | remarkOp rid m u n =>
    simp only [applyOp] at hr
    cases hcr : addRemark store rid m u n with
    | ok p =>
      obtain ⟨r0, s2⟩ := p
      rw [hcr] at hr
      obtain ⟨_, m1, _, _, r1, hfind, hr0, _, hs2⟩ := addRemark_ok hcr
      rw [hs2] at hr
      rcases mem_updateStore hr with hm | hm
      · exact h r hm
      · subst hm
        rw [hr0]
        exact ReqInv_remark (h r1 (findById_mem hfind)) m1 u n
    | error e =>
      rw [hcr] at hr
      exact h r hr
  | rejectOp rid rsn u n =>
    simp only [applyOp] at hr
    cases hcr : rejectRequest store rid rsn u n with
    | ok p =>
      obtain ⟨r0, s2⟩ := p
      rw [hcr] at hr
      obtain ⟨_, rsn1, _, _, r1, hfind, hr0, _, hs2⟩ := rejectRequest_ok hcr
      rw [hs2] at hr
      rcases mem_updateStore hr with hm | hm
      · exact h r hm
      · subst hm
        rw [hr0]
        exact ReqInv_reject (h r1 (findById_mem hfind)) rsn1 u n
    | error e =>
      rw [hcr] at hr
      exact h r hr

theorem run_inv (ops : List Op) : ∀ r ∈ run ops, ReqInv r := by
  unfold run
  suffices h : ∀ store, (∀ r ∈ store, ReqInv r) →
      ∀ r ∈ ops.foldl applyOp store, ReqInv r by
    exact h [] (by simp)
  induction ops with
  | nil =>
    intro store h
    simpa using h
  | cons op ops ih =>
    intro store h
    rw [List.foldl_cons]
    exact ih _ (applyOp_inv op h)

/-! The regex reading of the search option agrees with the substring reading
exactly on metacharacter-free search strings. -/

theorem lexPattern_of_plain {l : List Char}
    (h : ∀ c ∈ l, c ≠ '\\' ∧ c ≠ '.') : lexPattern l = l.map RTok.lit := by
  induction l with
  | nil => rfl
  | cons c rest ih =>
    have hc := h c (List.mem_cons_self c rest)
    rw [lexPattern.eq_def]
    dsimp only
    rw [if_neg hc.1, if_neg hc.2, List.map_cons,
      ih (fun d hd => h d (List.mem_cons_of_mem c hd))]

theorem matchHere_map_lit (l : List Char) :
    ∀ cs, matchHere (l.map RTok.lit) cs = ciStarts l cs := by
  induction l with
  | nil =>
    intro cs
    cases cs <;> rfl
  | cons a l ih =>
    intro cs
    cases cs with
    | nil => rfl
    | cons c cs => simp [matchHere, ciStarts, tokMatch, ih]

theorem regexSearch_map_lit (l : List Char) :
    ∀ cs, regexSearch (l.map RTok.lit) cs = ciContains l cs := by
  intro cs
  induction cs with
  | nil => simp [regexSearch, ciContains, matchHere_map_lit]
  | cons c cs ih => simp [regexSearch, ciContains, matchHere_map_lit, ih]

theorem mongoRegexTestCI_eq_ciSubstr {pat : String} (s : String)
    (h : ∀ c ∈ pat.toList, c ∉ regexMeta) :
    mongoRegexTestCI pat s = ciSubstr pat s := by
  unfold mongoRegexTestCI ciSubstr
  rw [lexPattern_of_plain, regexSearch_map_lit]
  intro c hc
  have hm := h c hc
  simp [regexMeta] at hm
  exact ⟨hm.1, hm.2.2.2.1⟩

theorem matchesQuery_eq_specMatches {q : ListQuery} {r : Request}
    (h : ∀ s, q.search = some s → ∀ c ∈ s.toList, c ∉ regexMeta) :
    matchesQuery q r = specMatches q r := by
  unfold matchesQuery specMatches
  cases hs : q.search with
  | none => simp [searchFilter, specSearchFilter]
  | some s =>
    simp only [searchFilter, specSearchFilter]
    rw [mongoRegexTestCI_eq_ciSubstr r.title (h s hs),
      mongoRegexTestCI_eq_ciSubstr r.description (h s hs)]

/-! The claims. -/

/-- Claim C1: every successful updateRequestStatus, addRemark or rejectRequest
call on a stored request appends exactly one new entry to its timeline, keeps
every previously present timeline entry unchanged (the old timeline is a
prefix of the new one), and never edits or removes adminRemarks entries:
the status update and the rejection leave adminRemarks unchanged while
addRemark appends exactly one entry, keeping the old list as a prefix. -/
theorem C1_append_only (store : List Request) (rid : String) (user : Principal)
    (now : Nat) (r r' : Request) (store' : List Request)
    (hfind : findById store rid = some r) :
    (∀ body, updateRequestStatus store rid body user now = .ok (r', store') →
      r'.timeline.length = r.timeline.length + 1 ∧ r.timeline <+: r'.timeline ∧
      r'.adminRemarks = r.adminRemarks) ∧
    (∀ remark, addRemark store rid remark user now = .ok (r', store') →
      r'.timeline.length = r.timeline.length + 1 ∧ r.timeline <+: r'.timeline ∧
      r'.adminRemarks.length = r.adminRemarks.length + 1 ∧
      r.adminRemarks <+: r'.adminRemarks) ∧
    (∀ reason, rejectRequest store rid reason user now = .ok (r', store') →
      r'.timeline.length = r.timeline.length + 1 ∧ r.timeline <+: r'.timeline ∧
      r'.adminRemarks = r.adminRemarks) := by
  refine ⟨?_, ?_, ?_⟩
  · intro body h
    obtain ⟨_, r1, hfind1, hr, _, _⟩ := updateRequestStatus_ok h
    rw [hfind1] at hfind
    injection hfind with he
    subst he
    rw [hr]
    unfold applyStatusUpdate
    exact ⟨by simp, ⟨_, rfl⟩, rfl⟩
  · intro remark h
    obtain ⟨_, m, _, _, r1, hfind1, hr, _, _⟩ := addRemark_ok h
    rw [hfind1] at hfind
    injection hfind with he
    subst he
    rw [hr]
    unfold applyRemark
    exact ⟨by simp, ⟨_, rfl⟩, by simp, ⟨_, rfl⟩⟩
  · intro reason h
    obtain ⟨_, rsn, _, _, r1, hfind1, hr, _, _⟩ := rejectRequest_ok h
    rw [hfind1] at hfind
    injection hfind with he
    subst he
    rw [hr]
    unfold applyReject
    exact ⟨by simp, ⟨_, rfl⟩, rfl⟩

/-- Witness for C1 at a concrete successful status update. -/
theorem C1_append_only_witness :
    sampleReq2.timeline.length = sampleReq.timeline.length + 1 ∧
    sampleReq.timeline <+: sampleReq2.timeline ∧
    sampleReq2.adminRemarks = sampleReq.adminRemarks :=
  (C1_append_only [sampleReq] "r1" adminP 5 sampleReq sampleReq2 [sampleReq2]
    (by decide)).1 ⟨"approved", none⟩ (by decide)

/-- Claim C2: for every valid creation input (recognized request type,
non-empty title and description, and an acceptable priority value), create
succeeds and returns a request whose status is submitted, whose priority is
medium whenever the body leaves priority unset (or empty, which the code
treats the same), and whose timeline is exactly the one seeded entry with the
submitted status, the system message, and no performedBy. -/
theorem C2_create (store : List Request) (user : Principal) (body : CreateBody)
    (newId : String) (now : Nat) (rt t d : String)
    (hrt : body.requestType = some rt) (hrtv : rt ∈ requestTypeEnum)
    (ht : body.title = some t) (htne : t ≠ "")
    (hd : body.description = some d) (hdne : d ≠ "")
    (hp : orDefault body.priority "medium" ∈ priorityEnum) :
    ∃ r' store', createRequest store user body newId now = .ok (r', store') ∧
      r'.status = "submitted" ∧
      (body.priority = none → r'.priority = "medium") ∧
      (body.priority = some "" → r'.priority = "medium") ∧
      r'.timeline =
        [⟨"submitted", "Request submitted successfully", none, none, now⟩] := by
  unfold createRequest
  rw [hrt, ht, hd]
  dsimp only
  split
  · refine ⟨_, _, rfl, rfl, ?_, ?_, by simp [seedEvent]⟩
    · intro hp0
      rw [hp0]
      rfl
    · intro hp0
      rw [hp0]
      rfl
  · rename_i hv
    refine absurd ?_ hv
    unfold validRequest
    exact ⟨hrtv, htne, hdne, show "submitted" ∈ statusEnum by decide, hp⟩

/-- Witness for C2 at a concrete valid creation. -/
theorem C2_create_witness :
    ∃ r' store', createRequest [] studentP sampleBody "r1" 0 = .ok (r', store') ∧
      r'.status = "submitted" ∧
      (sampleBody.priority = none → r'.priority = "medium") ∧
      (sampleBody.priority = some "" → r'.priority = "medium") ∧
      r'.timeline =
        [⟨"submitted", "Request submitted successfully", none, none, 0⟩] :=
  C2_create [] studentP sampleBody "r1" 0 "transcript" "Need transcript"
    "Please mail my transcript" rfl (by decide) rfl (by decide) rfl (by decide)
    (by decide)

/-- Claim C3: updateRequestStatus fails with AuthorizationError for a
non-admin caller, with NotFoundError when the id is unknown, and with
ValidationError when the new status is outside the status enumeration; for an
admin caller, a stored schema-valid request and an enumerated new status it
succeeds, sets the status to the new status, and appends exactly the timeline
entry carrying the new status, the supplied message (or the default message
naming the new status when none or the empty string is supplied), and the
caller's id and full name. -/
theorem C3_updateStatus (store : List Request) (rid : String) (body : StatusBody)
    (user : Principal) (now : Nat) :
    (user.role ≠ "admin" →
      updateRequestStatus store rid body user now = .error .AuthorizationError) ∧
    (user.role = "admin" → findById store rid = none →
      updateRequestStatus store rid body user now = .error .NotFoundError) ∧
    (∀ r, user.role = "admin" → findById store rid = some r →
      body.status ∉ statusEnum →
      updateRequestStatus store rid body user now = .error .ValidationError) ∧
    (∀ r, user.role = "admin" → findById store rid = some r →
      body.status ∈ statusEnum → r.requestType ∈ requestTypeEnum →
      r.title ≠ "" → r.description ≠ "" → r.priority ∈ priorityEnum →
      ∃ r' store', updateRequestStatus store rid body user now = .ok (r', store') ∧
        r'.status = body.status ∧
        r'.timeline = r.timeline ++
          [⟨body.status,
            orDefault body.message ("Status updated to " ++ body.status),
            some user.id, some (fullName user), now⟩]) := by
  refine ⟨?_, ?_, ?_, ?_⟩
  · intro hrole
    unfold updateRequestStatus
    rw [if_neg hrole]
  · intro hrole hnone
    unfold updateRequestStatus
    rw [if_pos hrole, hnone]
  · intro r hrole hfind hstat
    unfold updateRequestStatus
    rw [if_pos hrole, hfind]
    show saveExisting store (applyStatusUpdate body user now r) now = _
    unfold saveExisting
    rw [if_neg]
    intro hv
    exact hstat hv.2.2.2.1
  · intro r hrole hfind hstat hrt ht hd hp
    unfold updateRequestStatus
    rw [if_pos hrole, hfind]
    show ∃ r' store', saveExisting store (applyStatusUpdate body user now r) now =
      .ok (r', store') ∧ _
    unfold saveExisting
    have hv : validRequest
        { applyStatusUpdate body user now r with updatedAt := now } :=
      ⟨hrt, ht, hd, hstat, hp⟩
    rw [if_pos hv]
    exact ⟨_, _, rfl, rfl, rfl⟩

/-- Witness for C3: a non-admin caller is rejected, an unknown status is
rejected, and a concrete valid update succeeds with the expected record. -/
theorem C3_updateStatus_witness :
    updateRequestStatus [sampleReq] "r1" ⟨"approved", none⟩ studentP 5 =
      .error .AuthorizationError ∧
    updateRequestStatus [sampleReq] "r1" ⟨"bogus", none⟩ adminP 5 =
      .error .ValidationError ∧
    ∃ r' store', updateRequestStatus [sampleReq] "r1" ⟨"approved", none⟩ adminP 5 =
      .ok (r', store') ∧ r'.status = "approved" ∧
      r'.timeline = sampleReq.timeline ++
        [⟨"approved", "Status updated to approved", some "u1", some "Ada Admin", 5⟩] :=
  ⟨(C3_updateStatus [sampleReq] "r1" ⟨"approved", none⟩ studentP 5).1 (by decide),
   (C3_updateStatus [sampleReq] "r1" ⟨"bogus", none⟩ adminP 5).2.2.1 sampleReq
     (by decide) (by decide) (by decide),
   (C3_updateStatus [sampleReq] "r1" ⟨"approved", none⟩ adminP 5).2.2.2 sampleReq
     (by decide) (by decide) (by decide) (by decide) (by decide) (by decide)
     (by decide)⟩

/-- Claim C4: for every request reachable by any operation sequence,
completedAt is set exactly when the timeline records that the completed
status was reached at some point; updateRequestStatus with the completed
status stamps completedAt with the current time; creation leaves it unset;
and every other successful operation (a status update to a different value,
any remark, any rejection) leaves completedAt unchanged, so the field is
never cleared once set. -/
theorem C4_completedAt :
    (∀ ops : List Op, ∀ r ∈ run ops,
      (r.completedAt ≠ none ↔ ∃ e ∈ r.timeline, e.status = "completed")) ∧
    (∀ store user body newId now (r' : Request) store',
      createRequest store user body newId now = .ok (r', store') →
      r'.completedAt = none) ∧
    (∀ store rid body user now (r r' : Request) store',
      findById store rid = some r →
      updateRequestStatus store rid body user now = .ok (r', store') →
      (body.status = "completed" → r'.completedAt = some now) ∧
      (body.status ≠ "completed" → r'.completedAt = r.completedAt)) ∧
    (∀ store rid remark user now (r r' : Request) store',
      findById store rid = some r →
      addRemark store rid remark user now = .ok (r', store') →
      r'.completedAt = r.completedAt) ∧
    (∀ store rid reason user now (r r' : Request) store',
      findById store rid = some r →
      rejectRequest store rid reason user now = .ok (r', store') →
      r'.completedAt = r.completedAt) := by
  refine ⟨?_, ?_, ?_, ?_, ?_⟩
  · intro ops r hr
    exact (run_inv ops r hr).2.2
  · intro store user body newId now r' store' h
    exact (createRequest_ok h).2.2.1
  · intro store rid body user now r r' store' hfind h
    obtain ⟨_, r1, hfind1, hr, _, _⟩ := updateRequestStatus_ok h
    rw [hfind1] at hfind
    injection hfind with he
    subst he
    rw [hr]
    constructor
    · intro hc
      simp [applyStatusUpdate, hc]
    · intro hc
      simp [applyStatusUpdate, hc]
  · intro store rid remark user now r r' store' hfind h
    obtain ⟨_, m, _, _, r1, hfind1, hr, _, _⟩ := addRemark_ok h
    rw [hfind1] at hfind
    injection hfind with he
    subst he
    rw [hr]
    rfl
  · intro store rid reason user now r r' store' hfind h
    obtain ⟨_, rsn, _, _, r1, hfind1, hr, _, _⟩ := rejectRequest_ok h
    rw [hfind1] at hfind
    injection hfind with he
    subst he
    rw [hr]
    rfl

/-- Witness for C4: the invariant at a concretely created request, and an
unchanged completedAt across a concrete non-completing status update. -/
theorem C4_completedAt_witness :
    (sampleReq.completedAt ≠ none ↔
      ∃ e ∈ sampleReq.timeline, e.status = "completed") ∧
    sampleReq2.completedAt = sampleReq.completedAt :=
  ⟨C4_completedAt.1 sampleOps sampleReq (by decide),
   (C4_completedAt.2.2.1 [sampleReq] "r1" ⟨"approved", none⟩ adminP 5 sampleReq
     sampleReq2 [sampleReq2] (by decide) (by decide)).2 (by decide)⟩

/-- Claim C5: rejectRequest fails with ValidationError on a missing or empty
reason (before any lookup), with NotFoundError on an unknown id; for an admin
caller, a stored schema-valid request and a non-empty reason it succeeds,
sets the status to rejected, stores the reason in rejectionReason, appends
exactly the rejection timeline entry naming the caller, and a subsequent
getRequestById on the updated store by any admin returns the updated request,
which therefore shows the rejected status and the recorded reason. -/
theorem C5_reject (store : List Request) (rid : String) (user : Principal)
    (now : Nat) :
    (user.role = "admin" →
      rejectRequest store rid none user now = .error .ValidationError ∧
      rejectRequest store rid (some "") user now = .error .ValidationError) ∧
    (∀ rsn, user.role = "admin" → rsn ≠ "" → findById store rid = none →
      rejectRequest store rid (some rsn) user now = .error .NotFoundError) ∧
    (∀ rsn (r : Request), user.role = "admin" → rsn ≠ "" →
      findById store rid = some r →
      r.requestType ∈ requestTypeEnum → r.title ≠ "" → r.description ≠ "" →
      r.priority ∈ priorityEnum →
      ∃ r' store', rejectRequest store rid (some rsn) user now = .ok (r', store') ∧
        r'.status = "rejected" ∧ r'.rejectionReason = some rsn ∧
        r'.timeline = r.timeline ++
          [⟨"rejected", "Request rejected: " ++ rsn, some user.id,
            some (fullName user), now⟩] ∧
        ∀ caller : Principal, caller.role = "admin" →
          getRequestById store' rid caller = .ok r') := by
  refine ⟨?_, ?_, ?_⟩
  · intro hrole
    constructor
    · unfold rejectRequest
      rw [if_pos hrole]
    · unfold rejectRequest
      rw [if_pos hrole]
      rfl
  · intro rsn hrole hne hnone
    unfold rejectRequest
    rw [if_pos hrole]
    show (if rsn = "" then Except.error RequestError.ValidationError
      else _) = _
    rw [if_neg hne, hnone]
  · intro rsn r hrole hne hfind hrt ht hd hp
    unfold rejectRequest
    rw [if_pos hrole]
    show (∃ r' store', (if rsn = "" then Except.error RequestError.ValidationError
      else match findById store rid with
        | none => Except.error RequestError.NotFoundError
        | some r => saveExisting store (applyReject rsn user now r) now) =
      Except.ok (r', store') ∧ _)
    rw [if_neg hne, hfind]
    show ∃ r' store', saveExisting store (applyReject rsn user now r) now =
      .ok (r', store') ∧ _
    unfold saveExisting
    have hv : validRequest { applyReject rsn user now r with updatedAt := now } :=
      ⟨hrt, ht, hd, show "rejected" ∈ statusEnum by decide, hp⟩
    rw [if_pos hv]
    refine ⟨_, _, rfl, rfl, rfl, rfl, ?_⟩
    intro caller hcaller
    unfold getRequestById
    rw [findById_updateStore { applyReject rsn user now r with updatedAt := now }
      hfind rfl]
    show (if ({ applyReject rsn user now r with
        updatedAt := now } : Request).userId ≠ caller.id ∧
        caller.role ≠ "admin" then _ else _) = _
    rw [if_neg (fun hcon => hcon.2 hcaller)]

/-- Witness for C5: an empty reason is rejected, and a concrete rejection
succeeds with the recorded reason and is visible to an admin reader. -/
theorem C5_reject_witness :
    rejectRequest [sampleReq] "r1" (some "") adminP 6 =
      .error .ValidationError ∧
    ∃ r' store', rejectRequest [sampleReq] "r1" (some "missing fee") adminP 6 =
      .ok (r', store') ∧
      r'.status = "rejected" ∧ r'.rejectionReason = some "missing fee" ∧
      r'.timeline = sampleReq.timeline ++
        [⟨"rejected", "Request rejected: missing fee", some "u1",
          some "Ada Admin", 6⟩] ∧
      ∀ caller : Principal, caller.role = "admin" →
        getRequestById store' "r1" caller = .ok r' :=
  ⟨((C5_reject [sampleReq] "r1" adminP 6).1 (by decide)).2,
   (C5_reject [sampleReq] "r1" adminP 6).2.2 "missing fee" sampleReq (by decide)
     (by decide) (by decide) (by decide) (by decide) (by decide) (by decide)⟩

/-- Claim C6: addRemark fails with ValidationError on a missing or empty
remark (before any lookup); for an admin caller, a stored schema-valid
request and a non-empty remark it succeeds, leaves the status unchanged, and
appends exactly one adminRemarks entry carrying the caller's id, name, the
remark text and the timestamp, together with one mirrored timeline entry at
the unchanged status whose message quotes the remark and whose performedBy is
the caller's id. -/
theorem C6_addRemark (store : List Request) (rid : String) (user : Principal)
    (now : Nat) :
    (user.role = "admin" →
      addRemark store rid none user now = .error .ValidationError ∧
      addRemark store rid (some "") user now = .error .ValidationError) ∧
    (∀ m (r : Request), user.role = "admin" → m ≠ "" →
      findById store rid = some r →
      r.requestType ∈ requestTypeEnum → r.title ≠ "" → r.description ≠ "" →
      r.status ∈ statusEnum → r.priority ∈ priorityEnum →
      ∃ r' store', addRemark store rid (some m) user now = .ok (r', store') ∧
        r'.status = r.status ∧
        r'.adminRemarks = r.adminRemarks ++
          [⟨some user.id, some (fullName user), some m, now⟩] ∧
        r'.timeline = r.timeline ++
          [⟨r.status, "Admin added a remark: " ++ m, some user.id,
            some (fullName user), now⟩]) := by
  refine ⟨?_, ?_⟩
  · intro hrole
    constructor
    · unfold addRemark
      rw [if_pos hrole]
    · unfold addRemark
      rw [if_pos hrole]
      rfl
  · intro m r hrole hne hfind hrt ht hd hst hp
    unfold addRemark
    rw [if_pos hrole]
    show (∃ r' store', (if m = "" then Except.error RequestError.ValidationError
      else match findById store rid with
        | none => Except.error RequestError.NotFoundError
        | some r => saveExisting store (applyRemark m user now r) now) =
      Except.ok (r', store') ∧ _)
    rw [if_neg hne, hfind]
    show ∃ r' store', saveExisting store (applyRemark m user now r) now =
      .ok (r', store') ∧ _
    unfold saveExisting
    have hv : validRequest { applyRemark m user now r with updatedAt := now } :=
      ⟨hrt, ht, hd, hst, hp⟩
    rw [if_pos hv]
    exact ⟨_, _, rfl, rfl, rfl, rfl⟩

/-- Witness for C6: an empty remark is rejected, and a concrete remark is
appended to both logs at the unchanged status. -/
theorem C6_addRemark_witness :
    addRemark [sampleReq] "r1" (some "") adminP 7 = .error .ValidationError ∧
    ∃ r' store', addRemark [sampleReq] "r1" (some "checking") adminP 7 =
      .ok (r', store') ∧
      r'.status = sampleReq.status ∧
      r'.adminRemarks = sampleReq.adminRemarks ++
        [⟨some "u1", some "Ada Admin", some "checking", 7⟩] ∧
      r'.timeline = sampleReq.timeline ++
        [⟨sampleReq.status, "Admin added a remark: checking", some "u1",
          some "Ada Admin", 7⟩] :=
  ⟨((C6_addRemark [sampleReq] "r1" adminP 7).1 (by decide)).2,
   (C6_addRemark [sampleReq] "r1" adminP 7).2 "checking" sampleReq (by decide)
     (by decide) (by decide) (by decide) (by decide) (by decide) (by decide)
     (by decide)⟩

/-- Claim C7: getRequestById fails with NotFoundError when no stored request
matches the id; otherwise it fails with AuthorizationError exactly when the
caller is neither an admin nor the request's owner, and returns the request
for the owner and for any admin. -/
theorem C7_getById (store : List Request) (rid : String) (user : Principal) :
    (findById store rid = none →
      getRequestById store rid user = .error .NotFoundError) ∧
    (∀ r : Request, findById store rid = some r → user.role ≠ "admin" →
      r.userId ≠ user.id →
      getRequestById store rid user = .error .AuthorizationError) ∧
    (∀ r : Request, findById store rid = some r →
      (user.role = "admin" ∨ r.userId = user.id) →
      getRequestById store rid user = .ok r) := by
  refine ⟨?_, ?_, ?_⟩
  · intro hnone
    unfold getRequestById
    rw [hnone]
  · intro r hfind hrole hown
    unfold getRequestById
    rw [hfind]
    show (if r.userId ≠ user.id ∧ user.role ≠ "admin" then _ else _) = _
    rw [if_pos ⟨hown, hrole⟩]
  · intro r hfind hok
    unfold getRequestById
    rw [hfind]
    show (if r.userId ≠ user.id ∧ user.role ≠ "admin" then _ else _) = _
    rcases hok with hadm | hown
    · rw [if_neg (fun hcon => hcon.2 hadm)]
    · rw [if_neg (fun hcon => hcon.1 hown)]

/-- Witness for C7: a stranger is refused, while the owner and an admin both
read the stored request. -/
theorem C7_getById_witness :
    getRequestById [sampleReq] "r1" ⟨"u9", "user", "Ot", "Her"⟩ =
      .error .AuthorizationError ∧
    getRequestById [sampleReq] "r1" studentP = .ok sampleReq ∧
    getRequestById [sampleReq] "r1" adminP = .ok sampleReq ∧
    getRequestById [sampleReq] "zzz" adminP = .error .NotFoundError :=
  ⟨(C7_getById [sampleReq] "r1" ⟨"u9", "user", "Ot", "Her"⟩).2.1 sampleReq
     (by decide) (by decide) (by decide),
   (C7_getById [sampleReq] "r1" studentP).2.2 sampleReq (by decide)
     (Or.inr (by decide)),
   (C7_getById [sampleReq] "r1" adminP).2.2 sampleReq (by decide)
     (Or.inl (by decide)),
   (C7_getById [sampleReq] "zzz" adminP).1 (by decide)⟩

/-- Counterexample for C8 as stated: with the one-character search string
consisting of a bare dot, the controller's regex reading returns the stored
request whose title and description contain no dot at all, although a
case-insensitive substring reading of the search option excludes it. -/
theorem C8_listAll_counterexample :
    getAllRequests [sampleReq] searchQuery adminP = .ok [sampleReq] ∧
    specMatches searchQuery sampleReq = false ∧
    ciSubstr "." sampleReq.title = false ∧
    ciSubstr "." sampleReq.description = false := by decide

/-- Claim C8 (amended): for an admin caller and any filter whose search
string, when set, contains no regex metacharacter, getAllRequests returns
exactly the stored requests matching all set options combined by AND — the
three exact matches and the search option read as a case-insensitive
substring match against title OR description — ordered by createdAt
descending.  (For search strings containing metacharacters the code performs
a regex match instead, see the counterexample.) -/
theorem C8_listAll (store : List Request) (q : ListQuery) (user : Principal)
    (hrole : user.role = "admin")
    (hsearch : ∀ s, q.search = some s → ∀ c ∈ s.toList, c ∉ regexMeta) :
    ∃ l, getAllRequests store q user = .ok l ∧
      l.Perm (store.filter (specMatches q)) ∧
      l.Pairwise (fun a b => b.createdAt ≤ a.createdAt) := by
  unfold getAllRequests
  rw [if_pos hrole]
  refine ⟨_, rfl, ?_, ?_⟩
  · rw [List.filter_congr (fun x _ => matchesQuery_eq_specMatches hsearch)]
    exact List.perm_insertionSort _ _
  · exact List.sorted_insertionSort createdAtDesc _

/-- Witness for C8 at a concrete store and a metacharacter-free filter. -/
theorem C8_listAll_witness :
    ∃ l, getAllRequests fiveStore
        ⟨some "completed", none, none, some "transcript"⟩ adminP = .ok l ∧
      l.Perm (fiveStore.filter
        (specMatches ⟨some "completed", none, none, some "transcript"⟩)) ∧
      l.Pairwise (fun a b => b.createdAt ≤ a.createdAt) :=
  C8_listAll fiveStore ⟨some "completed", none, none, some "transcript"⟩ adminP
    (by decide)
    (fun s hs => by
      injection hs with hs
      subst hs
      decide)

/-- Claim C9: for every store, getRequestStats reports the store size as
total, and byStatus is exactly the mapping from each status value occurring
in the store to the number of requests having that status: a pair is listed
precisely when its count is the number of matching requests and positive,
and no status is listed twice. -/
theorem C9_stats (store : List Request) (user : Principal)
    (hrole : user.role = "admin") :
    ∃ st, getRequestStats store user = .ok st ∧ st.total = store.length ∧
      (∀ s n, (s, n) ∈ st.byStatus ↔ (countStatus store s = n ∧ 0 < n)) ∧
      (st.byStatus.map Prod.fst).Nodup := by
  unfold getRequestStats
  rw [if_pos hrole]
  refine ⟨_, rfl, rfl, ?_, ?_⟩
  · intro s n
    constructor
    · intro hmem
      obtain ⟨t, ht, hpair⟩ := List.mem_map.mp hmem
      obtain ⟨h1, h2⟩ := Prod.mk.injEq .. |>.mp hpair
      subst h1
      subst h2
      refine ⟨rfl, ?_⟩
      have hs : t ∈ store.map (fun r => r.status) := List.mem_dedup.mp ht
      obtain ⟨r, hrmem, hrs⟩ := List.mem_map.mp hs
      unfold countStatus
      rw [List.length_pos]
      intro hemp
      rw [List.filter_eq_nil_iff] at hemp
      exact hemp r hrmem (by simp [hrs])
    · rintro ⟨hcount, hpos⟩
      have hlen : store.filter (fun r => r.status == s) ≠ [] := by
        rw [← List.length_pos]
        unfold countStatus at hcount
        rw [hcount]
        exact hpos
      obtain ⟨r, hrmem⟩ := List.exists_mem_of_ne_nil _ hlen
      have hrs : r.status = s := by simpa using List.of_mem_filter hrmem
      have hrstore : r ∈ store := List.mem_of_mem_filter hrmem
      refine List.mem_map.mpr ⟨s, ?_, by rw [hcount]⟩
      exact List.mem_dedup.mpr (List.mem_map.mpr ⟨r, hrstore, hrs⟩)
  · have hcomp : (Prod.fst ∘ fun s => (s, countStatus store s)) = id := rfl
    rw [List.map_map, hcomp, List.map_id]
    exact List.nodup_dedup _

/-- Witness for C9 on the store with three submitted and two completed
requests. -/
theorem C9_stats_witness :
    ∃ st, getRequestStats fiveStore adminP = .ok st ∧
      st.total = fiveStore.length ∧
      (∀ s n, (s, n) ∈ st.byStatus ↔ (countStatus fiveStore s = n ∧ 0 < n)) ∧
      (st.byStatus.map Prod.fst).Nodup :=
  C9_stats fiveStore adminP rfl

/-- Claim C10: every request reachable by any operation sequence has exactly
one timeline entry without a performedBy — the seeded first entry — while
every later entry carries an acting admin's id. -/
theorem C10_unique_seed (ops : List Op) :
    ∀ r ∈ run ops, ∃ e rest, r.timeline = e :: rest ∧ e.performedBy = none ∧
      (∀ e2 ∈ rest, e2.performedBy ≠ none) ∧
      (r.timeline.filter (fun e2 => e2.performedBy.isNone)).length = 1 := by
  intro r hr
  obtain ⟨⟨e, rest, htl, hpb, hrest⟩, _, _⟩ := run_inv ops r hr
  refine ⟨e, rest, htl, hpb, hrest, ?_⟩
  rw [htl, List.filter_cons, if_pos (by simp [hpb])]
  have hnil : rest.filter (fun e2 => e2.performedBy.isNone) = [] := by
    rw [List.filter_eq_nil_iff]
    intro a ha
    simp only [Option.isNone_iff_eq_none]
    exact fun hcon => hrest a ha (by simpa using hcon)
  rw [hnil]
  rfl

/-- Witness for C10 at a concretely created request. -/
theorem C10_unique_seed_witness :
    ∃ e rest, sampleReq.timeline = e :: rest ∧ e.performedBy = none ∧
      (∀ e2 ∈ rest, e2.performedBy ≠ none) ∧
      (sampleReq.timeline.filter (fun e2 => e2.performedBy.isNone)).length = 1 :=
  C10_unique_seed sampleOps sampleReq (by decide)

end TUDoc
